import Mathlib

/-!
Verification development for the sftp-repl repository: a shallow embedding of
its glob-based remote path resolver (`search_glob`, `expand_path_globs`), the
per-turn `DirectoryCache`, the tokenizer and completion token location, the
`human_readable_size` formatter, and the command handlers with the REPL's
error-handling boundary.  Remote I/O is modelled by a record of functions
returning `Except IOErr _`; an `Except.error` models a raised Python
`IOError`.  Machine-level concerns (terminal rendering, progress bars, real
time) are out of scope per the specification; everything here is translated
from the Python source in `src/sftp_repl` (the final revision of the REPL).
-/

namespace SftpRepl

/-- Model of a Python IOError: the error message. -/
abbrev IOErr := String

/-- Model of paramiko's SFTPAttributes: the fields the core consumes.
`st_mode` carries the Unix file-kind bits (octal 170000 mask). -/
structure SFTPAttributes where
  filename : String
  st_mode : Nat
  st_size : Nat := 0
  deriving DecidableEq, Repr

/-- stat.S_IFMT: mask the file-kind bits out of a mode word. -/
def S_IFMT (m : Nat) : Nat := m &&& 0o170000

/-- stat.S_IFDIR. -/
def S_IFDIR : Nat := 0o040000

/-- stat.S_IFREG. -/
def S_IFREG : Nat := 0o100000

/-- completions.is_dir: the entry kind equals S_IFDIR. -/
def is_dir (a : SFTPAttributes) : Bool := S_IFMT a.st_mode == S_IFDIR

/-- Model of Python PurePosixPath as used by the repository: an absolute flag
and the list of (already-normalized) name segments.  `PurePath(".")` is the
empty relative path; `PurePath("/")` is the empty absolute path.  pathlib
keeps `".."` segments un-normalized, which this model mirrors by storing them
as ordinary segments. -/
structure PPath where
  absolute : Bool
  segments : List String
  deriving DecidableEq, Repr

namespace PPath

/-- str(path) for the model: "." for the empty relative path, leading "/" for
absolute paths, segments joined by "/". -/
def toStr (p : PPath) : String :=
  if p.absolute then "/" ++ String.intercalate "/" p.segments
  else if p.segments = [] then "." else String.intercalate "/" p.segments

/-- The `/` operator of PurePosixPath restricted to the repository's uses
(joining a filename or ".."): appends the segment, dropping "" and "." as
pathlib does. -/
def child (p : PPath) (name : String) : PPath :=
  if name = "" ∨ name = "." then p
  else { p with segments := p.segments ++ [name] }

/-- PurePath.parts: for an absolute path the first part is the root "/". -/
def parts (p : PPath) : List String :=
  if p.absolute then "/" :: p.segments else p.segments

/-- PurePath.root (as the "is there a root" test the code performs with
`path.root or "."`). -/
def rootNonempty (p : PPath) : Bool := p.absolute

/-- PurePosixPath.name: the final segment, or "" when there is none. -/
def name (p : PPath) : String := (p.segments.getLast?).getD ""

/-- PurePosixPath.parent: drops the final segment (the empty path is its own
parent). -/
def parent (p : PPath) : PPath := { p with segments := p.segments.dropLast }

end PPath

/-- fnmatch character-class membership: `a-b` denotes a range (a reversed
range matches nothing, as in CPython's translation); any other character is a
literal. -/
def classMatch : List Char → Char → Bool
  | [], _ => false
  | a :: '-' :: b :: rest, c =>
      (decide (a ≤ c) && decide (c ≤ b)) || classMatch rest c
  | a :: rest, c => (a == c) || classMatch rest c

/-- Split a character class body at its closing bracket: a `]` in the first
position is a literal member.  Returns the class characters and the remaining
pattern, or none when the class is unterminated (then `[` is a literal). -/
def splitClass : List Char → Bool → Option (List Char × List Char)
  | [], _ => none
  | c :: rest, first =>
      if c = ']' ∧ first = false then some ([], rest)
      else
        match splitClass rest false with
        | some (cls, r) => some (c :: cls, r)
        | none => none

theorem splitClass_length {l : List Char} {first : Bool} {cls r : List Char}
    (h : splitClass l first = some (cls, r)) : r.length < l.length := by
  induction l generalizing first cls r with
  | nil => simp [splitClass] at h
  | cons c rest ih =>
    rw [splitClass] at h
    split at h
    · simp at h
      simp [← h.2]
    · cases hsc : splitClass rest false with
      | none => rw [hsc] at h; simp at h
      | some p =>
        rw [hsc] at h
        obtain ⟨cls', r'⟩ := p
        simp at h
        have := ih hsc
        simp [← h.2]
        omega

/-- One element of a parsed glob pattern. -/
inductive GlobItem where
  | lit (c : Char)
  | anyOne
  | star
  | cls (negated : Bool) (chars : List Char)
  deriving DecidableEq, Repr

/-- Parse a glob pattern the way fnmatch.translate scans it: `*`, `?`,
`[...]` with optional `!` negation and first-position `]` literal; an
unterminated `[` is a literal. -/
def parseGlob (l : List Char) : List GlobItem :=
  match l with
  | [] => []
  | '*' :: ps => .star :: parseGlob ps
  | '?' :: ps => .anyOne :: parseGlob ps
  | '[' :: ps =>
      let negated := ps.head? = some '!'
      let body := if negated then ps.tail else ps
      match h : splitClass body true with
      | some (c, rest) => .cls negated c :: parseGlob rest
      | none => .lit '[' :: parseGlob ps
  | c :: ps => .lit c :: parseGlob ps
  termination_by l.length
  decreasing_by
    all_goals simp_wf
    all_goals first
      | omega
      | (have hlt := splitClass_length h
         have hble : body.length ≤ ps.length := by
           simp only [body]
           split
           · cases ps <;> simp
           · exact Nat.le_refl _
         omega)

/-- Match a parsed glob pattern against a name. -/
def globMatch (p : List GlobItem) (n : List Char) : Bool :=
  match p, n with
  | [], [] => true
  | [], _ :: _ => false
  | .star :: ps, [] => globMatch ps []
  | .star :: ps, c :: ns => globMatch ps (c :: ns) || globMatch (.star :: ps) ns
  | .anyOne :: ps, _ :: ns => globMatch ps ns
  | .lit c :: ps, d :: ns => (c == d) && globMatch ps ns
  | .cls neg chars :: ps, c :: ns =>
      (if neg then !(classMatch chars c) else classMatch chars c)
        && globMatch ps ns
  | _ :: _, [] => false
  termination_by (p.length, n.length)

/-- fnmatch.fnmatch on posix (no case folding). -/
def fnmatch (name pattern : String) : Bool :=
  globMatch (parseGlob pattern.data) name.data

/-- The RemoteFS capability: the slice of paramiko's SFTPClient that the
repository consumes, as pure functions; `Except.error` models a raised
IOError.  The file-transfer and mutation calls return their success or
failure; their on-disk effect is recorded by the callers in this embedding. -/
structure Fs where
  stat : String → Except IOErr SFTPAttributes
  listdir_attr : String → Except IOErr (List SFTPAttributes)
  chdir : String → Except IOErr Unit := fun _ => .ok ()
  getFile : String → String → Except IOErr Unit := fun _ _ => .ok ()
  putFile : String → String → Except IOErr Unit := fun _ _ => .ok ()
  removeFile : String → Except IOErr Unit := fun _ => .ok ()
  rmdirDir : String → Except IOErr Unit := fun _ => .ok ()
  mkdirDir : String → Except IOErr Unit := fun _ => .ok ()
  posix_rename : String → String → Except IOErr Unit := fun _ _ => .ok ()

mutual

/-- __main__.search_glob: recursive descent over a pattern's segments.  An
empty pattern stats the accumulated path; a literal ".." descends without
listing; otherwise the accumulated directory is listed (directly on the
client — no cache, no try/except: a failed stat or listing propagates as an
error) and every entry matching the segment is emitted or recursed into. -/
def search_glob (fs : Fs) (current_dir : PPath) (glob_parts : List String) :
    Except IOErr (List (PPath × SFTPAttributes)) :=
  match glob_parts with
  | [] =>
      match fs.stat current_dir.toStr with
      | .error e => .error e
      | .ok a => .ok [(current_dir, a)]
  | p :: rest =>
      if p = ".." then search_glob fs (current_dir.child "..") rest
      else
        match fs.listdir_attr current_dir.toStr with
        | .error e => .error e
        | .ok files => searchGlobFiles fs current_dir p rest files
  termination_by (glob_parts.length, 0)

/-- The body of search_glob's for-loop over the listed entries, accumulating
matches depth-first in entry order. -/
def searchGlobFiles (fs : Fs) (current_dir : PPath) (p : String)
    (rest : List String) (files : List SFTPAttributes) :
    Except IOErr (List (PPath × SFTPAttributes)) :=
  match files with
  | [] => .ok []
  | f :: fsRest =>
      if fnmatch f.filename p then
        if rest = [] then
          match searchGlobFiles fs current_dir p rest fsRest with
          | .error e => .error e
          | .ok tail => .ok ((current_dir.child f.filename, f) :: tail)
        else
          match search_glob fs (current_dir.child f.filename) rest with
          | .error e => .error e
          | .ok sub =>
              match searchGlobFiles fs current_dir p rest fsRest with
              | .error e => .error e
              | .ok tail => .ok (sub ++ tail)
      else searchGlobFiles fs current_dir p rest fsRest
  termination_by (rest.length, files.length)

end

/-- __main__.expand_path_globs: concatenates the matches of each pattern,
starting each search at the pattern's root ("/" when the pattern is rooted,
"." otherwise) with the pattern's PurePath.parts as glob segments. -/
def expand_path_globs (fs : Fs) (paths : List PPath) :
    Except IOErr (List (PPath × SFTPAttributes)) :=
  paths.foldlM
    (fun acc path => do
      let start : PPath :=
        if path.rootNonempty then ⟨true, []⟩ else ⟨false, []⟩
      let r ← search_glob fs start path.parts
      pure (acc ++ r))
    []

/-- A fake remote filesystem on which every stat and listing fails. -/
def fsStatFail : Fs where
  stat := fun _ => .error "stat failed"
  listdir_attr := fun _ => .error "list failed"

/-- A fake remote filesystem whose root lists two ordinary directories. -/
def fsRootEtc : Fs where
  stat := fun _ => .error "no stat"
  listdir_attr := fun s =>
    if s = "/" then .ok [⟨"etc", 0o040755, 0⟩, ⟨"tmp", 0o040777, 0⟩]
    else .error "no list"

/-! Helper lemmas about glob matching and the resolver. -/

theorem fnmatch_slash (n : String) : fnmatch n "/" = true ↔ n = "/" := by
  obtain ⟨l⟩ := n
  have hp : parseGlob "/".data = [.lit '/'] := by simp [parseGlob]
  show globMatch (parseGlob "/".data) l = true ↔ _
  rw [hp]
  cases l with
  | nil => simp [globMatch]
  | cons c ns =>
    cases ns with
    | nil =>
      simp [globMatch, String.ext_iff]
      exact eq_comm
    | cons d tl => simp [globMatch, String.ext_iff]

theorem searchGlobFiles_slash_empty (fs : Fs) (cur : PPath) (rest : List String)
    (entries : List SFTPAttributes) (h : ∀ a ∈ entries, a.filename ≠ "/") :
    searchGlobFiles fs cur "/" rest entries = .ok [] := by
  induction entries with
  | nil => simp [searchGlobFiles]
  | cons a t ih =>
    have ha : a.filename ≠ "/" := h a (by simp)
    have hfn : fnmatch a.filename "/" = false := by
      cases hm : fnmatch a.filename "/" with
      | false => rfl
      | true => exact absurd ((fnmatch_slash _).1 hm) ha
    rw [searchGlobFiles, hfn]
    simp only [Bool.false_eq_true, if_false]
    exact ih (fun b hb => h b (by simp [hb]))

/-- Claim C2 (counterexample): the claim says glob expansion never raises and
a failed stat at end-of-pattern contributes zero matches; in the code a
failed stat propagates the IOError to the caller instead. -/
theorem search_glob_error_not_silent_cex :
    search_glob fsStatFail ⟨false, []⟩ [] = .error "stat failed" ∧
      Except.error "stat failed" ≠
        (.ok [] : Except IOErr (List (PPath × SFTPAttributes))) := by
  constructor
  · simp [search_glob, fsStatFail]
  · intro h
    exact Except.noConfusion h

/-- Claim C2 (amended): search_glob performs no caching and propagates remote
I/O errors to its caller: a failed stat when the pattern is exhausted, or a
failed listing at a mid-pattern segment (e.g. attempting to list a
non-directory), surfaces the IOError to the collecting caller rather than
contributing zero matches. -/
theorem search_glob_propagates_io_errors :
    (∀ (fs : Fs) (cur : PPath) (e : IOErr),
        fs.stat cur.toStr = .error e → search_glob fs cur [] = .error e) ∧
      (∀ (fs : Fs) (cur : PPath) (p : String) (rest : List String) (e : IOErr),
        p ≠ ".." → fs.listdir_attr cur.toStr = .error e →
          search_glob fs cur (p :: rest) = .error e) := by
  constructor
  · intro fs cur e h
    rw [search_glob, h]
  · intro fs cur p rest e hp h
    rw [search_glob, if_neg hp, h]

/-- Witness for the amended claim C2, at a concrete client and pattern. -/
theorem search_glob_propagates_io_errors_witness :
    search_glob fsStatFail ⟨false, []⟩ ["x"] = .error "list failed" :=
  search_glob_propagates_io_errors.2 fsStatFail ⟨false, []⟩ "x" [] "list failed"
    (by decide) rfl

/-- Claim C10: an absolute pattern's PurePath.parts begin with the root
separator "/", which expand_path_globs hands to search_glob as an ordinary
glob segment; since no listed entry is named "/", any rooted pattern with a
named segment expands to zero matches (provided the root listing itself
succeeds). -/
theorem expand_path_globs_absolute_empty (fs : Fs) (s : String)
    (rest : List String) (entries : List SFTPAttributes)
    (hl : fs.listdir_attr "/" = .ok entries)
    (hn : ∀ a ∈ entries, a.filename ≠ "/") :
    expand_path_globs fs [⟨true, s :: rest⟩] = .ok [] := by
  have hroot : (⟨true, []⟩ : PPath).toStr = "/" := by decide
  have hsearch : search_glob fs ⟨true, []⟩ ("/" :: s :: rest) = .ok [] := by
    rw [search_glob, if_neg (by decide), hroot, hl]
    exact searchGlobFiles_slash_empty fs _ _ entries hn
  simp [expand_path_globs, PPath.rootNonempty, PPath.parts, hsearch]

/-- Witness for claim C10 at a concrete client and the pattern "/etc". -/
theorem expand_path_globs_absolute_empty_witness :
    expand_path_globs fsRootEtc [⟨true, ["etc"]⟩] = .ok [] :=
  expand_path_globs_absolute_empty fsRootEtc "etc" []
    [⟨"etc", 0o040755, 0⟩, ⟨"tmp", 0o040777, 0⟩] rfl (by decide)

/-! The per-turn DirectoryCache of completions.py.  The cache is created
fresh each REPL turn; cwd memoization is omitted here as no claim concerns
it.  The listdirCalls field is instrumentation recording, in order, every
underlying listdir_attr round trip the cache has issued (the call-counting
fake of spec section 8). -/

/-- completions.DirectoryCache state: listings keyed by path, stat results
keyed by path, plus the instrumentation log of issued listdir calls. -/
structure DirectoryCache where
  files_by_directory : List (PPath × List SFTPAttributes) := []
  files_by_fullname : List (PPath × SFTPAttributes) := []
  listdirCalls : List String := []
  deriving DecidableEq, Repr

/-- A freshly reset cache (ConsoleInteractor.clear_cache). -/
def emptyCache : DirectoryCache := {}

/-- Python dict lookup for the cache's assoc-list model. -/
def plookup {β : Type} : List (PPath × β) → PPath → Option β
  | [], _ => none
  | (k, v) :: t, p => if k = p then some v else plookup t p

namespace DirectoryCache

/-- DirectoryCache.listdir: returns a cached listing when present; otherwise
issues one listdir_attr call, caching its result — with a failure cached as
the empty listing — and returns it. -/
def listdir (fs : Fs) (c : DirectoryCache) (path : PPath) :
    List SFTPAttributes × DirectoryCache :=
  match plookup c.files_by_directory path with
  | some l => (l, c)
  | none =>
      let l := match fs.listdir_attr path.toStr with
        | .ok l => l
        | .error _ => []
      (l, { c with files_by_directory := (path, l) :: c.files_by_directory,
                    listdirCalls := c.listdirCalls ++ [path.toStr] })

/-- DirectoryCache.is_directory: true immediately when the path itself has a
cached listing; else consult the parent's cached listing for an entry of the
same name; else fall back to one (memoized) stat, returning false when the
stat fails. -/
def is_directory (fs : Fs) (c : DirectoryCache) (path : PPath) :
    Bool × DirectoryCache :=
  if (plookup c.files_by_directory path).isSome then (true, c)
  else
    let viaParent : Option Bool :=
      match plookup c.files_by_directory path.parent with
      | some files =>
          match files.find? (fun f => f.filename == path.name) with
          | some f => some (is_dir f)
          | none => none
      | none => none
    match viaParent with
    | some b => (b, c)
    | none =>
        match plookup c.files_by_fullname path with
        | some a => (is_dir a, c)
        | none =>
            match fs.stat path.toStr with
            | .error _ => (false, c)
            | .ok a =>
                (is_dir a,
                 { c with files_by_fullname := (path, a) :: c.files_by_fullname })

end DirectoryCache

/-- Claim C3: within one turn, a second listdir on the same path issues no
further remote call and returns the same listing; when the path was not yet
cached the pair of calls issues exactly one remote call; a failed underlying
listing is returned and cached as the empty listing. -/
theorem DirectoryCache_listdir_single_call (fs : Fs) (c : DirectoryCache)
    (p : PPath) (h : plookup c.files_by_directory p = none) :
    (DirectoryCache.listdir fs (DirectoryCache.listdir fs c p).2 p).1 =
        (DirectoryCache.listdir fs c p).1 ∧
      (DirectoryCache.listdir fs (DirectoryCache.listdir fs c p).2 p).2 =
        (DirectoryCache.listdir fs c p).2 ∧
      (DirectoryCache.listdir fs c p).2.listdirCalls =
        c.listdirCalls ++ [p.toStr] ∧
      (∀ e, fs.listdir_attr p.toStr = .error e →
        (DirectoryCache.listdir fs c p).1 = [] ∧
          plookup (DirectoryCache.listdir fs c p).2.files_by_directory p =
            some []) := by
  refine ⟨?_, ?_, ?_, ?_⟩
  · simp [DirectoryCache.listdir, h, plookup]
  · simp [DirectoryCache.listdir, h, plookup]
  · simp [DirectoryCache.listdir, h]
  · intro e he
    simp [DirectoryCache.listdir, h, he, plookup]

/-- Witness for claim C3: a concrete client, fresh cache and path. -/
theorem DirectoryCache_listdir_single_call_witness :
    (DirectoryCache.listdir fsRootEtc
          (DirectoryCache.listdir fsRootEtc emptyCache ⟨true, []⟩).2
          ⟨true, []⟩).1 =
        (DirectoryCache.listdir fsRootEtc emptyCache ⟨true, []⟩).1 ∧
      (DirectoryCache.listdir fsRootEtc
          (DirectoryCache.listdir fsRootEtc emptyCache ⟨true, []⟩).2
          ⟨true, []⟩).2 =
        (DirectoryCache.listdir fsRootEtc emptyCache ⟨true, []⟩).2 ∧
      (DirectoryCache.listdir fsRootEtc emptyCache ⟨true, []⟩).2.listdirCalls =
        emptyCache.listdirCalls ++ [(⟨true, []⟩ : PPath).toStr] ∧
      (∀ e, fsRootEtc.listdir_attr (⟨true, []⟩ : PPath).toStr = .error e →
        (DirectoryCache.listdir fsRootEtc emptyCache ⟨true, []⟩).1 = [] ∧
          plookup (DirectoryCache.listdir fsRootEtc emptyCache
              ⟨true, []⟩).2.files_by_directory ⟨true, []⟩ = some []) :=
  DirectoryCache_listdir_single_call fsRootEtc emptyCache ⟨true, []⟩ rfl

/-- A fake remote filesystem where "f" is a regular file: stat succeeds with
a non-directory mode, and listing it fails, as listing a file does. -/
def fsFileF : Fs where
  stat := fun s => if s = "f" then .ok ⟨"f", 0o100644, 5⟩ else .error "no stat"
  listdir_attr := fun _ => .error "not a directory"

/-- Claim C4 (counterexample): after a failed listdir on the regular file
"f", the empty listing is cached for "f", so is_directory answers true even
though the remote stat shows "f" is not a directory — refuting both "every
path that has a cached listing is a directory" and "is_directory returns
true only for paths that are actually directories". -/
theorem is_directory_true_for_failed_listing_cex :
    (DirectoryCache.is_directory fsFileF
        (DirectoryCache.listdir fsFileF emptyCache ⟨false, ["f"]⟩).2
        ⟨false, ["f"]⟩).1 = true ∧
      fsFileF.stat "f" = .ok ⟨"f", 0o100644, 5⟩ ∧
      is_dir ⟨"f", 0o100644, 5⟩ = false := by
  refine ⟨?_, ?_, ?_⟩
  · simp [DirectoryCache.listdir, DirectoryCache.is_directory, plookup,
      fsFileF, emptyCache]
  · simp [fsFileF]
  · decide

/-- Claim C4 (amended): every path with a cached listing — including a path
whose listdir failed and was cached as empty, even when it is not actually a
directory — answers is_directory true, so any path previously passed to
listdir in the turn answers true; for a path with no cached listing, no
parent-listing entry and no memoized stat, is_directory reports the remote
stat's kind, and returns false when the stat fails. -/
theorem is_directory_cache_semantics :
    (∀ (fs : Fs) (c : DirectoryCache) (p : PPath),
        (plookup c.files_by_directory p).isSome →
          DirectoryCache.is_directory fs c p = (true, c)) ∧
      (∀ (fs : Fs) (c : DirectoryCache) (p : PPath),
        (DirectoryCache.is_directory fs
            (DirectoryCache.listdir fs c p).2 p).1 = true) ∧
      (∀ (fs : Fs) (c : DirectoryCache) (p : PPath) (a : SFTPAttributes),
        plookup c.files_by_directory p = none →
        (∀ files, plookup c.files_by_directory p.parent = some files →
          files.find? (fun f => f.filename == p.name) = none) →
        plookup c.files_by_fullname p = none →
        fs.stat p.toStr = .ok a →
          (DirectoryCache.is_directory fs c p).1 = is_dir a) ∧
      (∀ (fs : Fs) (c : DirectoryCache) (p : PPath) (e : IOErr),
        plookup c.files_by_directory p = none →
        (∀ files, plookup c.files_by_directory p.parent = some files →
          files.find? (fun f => f.filename == p.name) = none) →
        plookup c.files_by_fullname p = none →
        fs.stat p.toStr = .error e →
          (DirectoryCache.is_directory fs c p).1 = false) := by
  have hcached : ∀ (fs : Fs) (c : DirectoryCache) (p : PPath),
      (plookup c.files_by_directory p).isSome →
        DirectoryCache.is_directory fs c p = (true, c) := by
    intro fs c p h
    simp [DirectoryCache.is_directory, h]
  refine ⟨hcached, ?_, ?_, ?_⟩
  · intro fs c p
    cases hlk : plookup c.files_by_directory p with
    | some l =>
        have h2 : (DirectoryCache.listdir fs c p).2 = c := by
          simp [DirectoryCache.listdir, hlk]
        rw [h2, hcached fs c p (by simp [hlk])]
    | none =>
        have h2 : plookup (DirectoryCache.listdir fs c p).2.files_by_directory
            p ≠ none := by
          simp [DirectoryCache.listdir, hlk, plookup]
        rw [hcached fs _ p (by simp [Option.isSome_iff_ne_none, h2])]
  · intro fs c p a h1 hpar h3 h4
    cases hp : plookup c.files_by_directory p.parent with
    | none => simp [DirectoryCache.is_directory, h1, hp, h3, h4]
    | some files =>
      simp [DirectoryCache.is_directory, h1, hp, hpar files hp, h3, h4]
  · intro fs c p e h1 hpar h3 h4
    cases hp : plookup c.files_by_directory p.parent with
    | none => simp [DirectoryCache.is_directory, h1, hp, h3, h4]
    | some files =>
      simp [DirectoryCache.is_directory, h1, hp, hpar files hp, h3, h4]

/-- A turn state in which the parent directory's listing is already cached
but contains no entry named "f". -/
def cacheParentOnly : DirectoryCache :=
  { files_by_directory := [(⟨false, []⟩, [⟨"g", 0o100644, 1⟩])] }

/-- Witness for the amended claim C4: the stat fallback at a concrete path
whose parent listing is cached but lacks a matching entry, hypotheses
discharged definitionally. -/
theorem is_directory_cache_semantics_witness :
    (DirectoryCache.is_directory fsFileF cacheParentOnly ⟨false, ["f"]⟩).1 =
      is_dir ⟨"f", 0o100644, 5⟩ :=
  is_directory_cache_semantics.2.2.1 fsFileF cacheParentOnly ⟨false, ["f"]⟩
    ⟨"f", 0o100644, 5⟩ rfl (fun files h => by cases h; rfl) rfl rfl

/-! utils.human_readable_size.  For size < 2^53 the Python float
size / 1024**k is exact (an exactly-representable integer divided by a power
of two), the comparison `ssize > 10.0` is exactly `size > 10 * 2^(10k)`, and
the "%.0f" / "%.1f" formattings are correct (round-half-even) roundings of
that exact rational, computed below in integer arithmetic. -/

/-- Round-half-even of a / 2^m, as CPython's float-to-decimal formatting
rounds an exactly-representable quotient. -/
def rheDiv (a m : Nat) : Nat :=
  if m = 0 then a
  else
    let q := a / 2 ^ m
    let r := a % 2 ^ m
    let h := 2 ^ (m - 1)
    if r < h then q
    else if h < r then q + 1
    else if q % 2 = 0 then q else q + 1

/-- The unit exponent chosen by human_readable_size's threshold chain. -/
def sizeExp (size : Nat) : Nat :=
  if size < 1024 then 0
  else if size < 1024 ^ 2 then 1
  else if size < 1024 ^ 3 then 2
  else if size < 1024 ^ 4 then 3
  else 4

/-- The unit suffix for each exponent. -/
def sizeLabel : Nat → String
  | 0 => "B"
  | 1 => "K"
  | 2 => "M"
  | 3 => "G"
  | _ => "T"

/-- utils.human_readable_size: scale by powers of 1024, then format with no
decimals when the scaled value strictly exceeds 10 (or the size is below
1024 bytes), else with one decimal. -/
def human_readable_size (size : Nat) : String :=
  let k := sizeExp size
  let lab := sizeLabel k
  if 10 * 2 ^ (10 * k) < size ∨ size < 1024 then
    toString (rheDiv size (10 * k)) ++ lab
  else
    let n := rheDiv (10 * size) (10 * k)
    toString (n / 10) ++ "." ++ toString (n % 10) ++ lab

/-- Claim C5 (counterexample): the claim says 1024 → "1K" and 10_485_760 →
"10M" (no decimal once the scaled value reaches 10 units); the code formats
with one decimal unless the scaled value strictly exceeds 10, giving "1.0K"
and "10.0M". -/
theorem human_readable_size_cex :
    human_readable_size 1024 = "1.0K" ∧ "1.0K" ≠ "1K" ∧
      human_readable_size 10485760 = "10.0M" ∧ "10.0M" ≠ "10M" := by
  refine ⟨by decide, by decide, by decide, by decide⟩

/-- Claim C5 (amended): 0 → "0B", 1023 → "1023B", 1024 → "1.0K",
1536 → "1.5K", 10_485_760 → "10.0M", 11_534_336 → "11M"; the output has 0
decimal places exactly when the scaled value strictly exceeds 10 units or
the size is below 1024 bytes, and 1 decimal place otherwise, with unit
suffix B/K/M/G/T chosen by powers of 1024. -/
theorem human_readable_size_spec :
    (human_readable_size 0 = "0B" ∧ human_readable_size 1023 = "1023B" ∧
        human_readable_size 1024 = "1.0K" ∧
        human_readable_size 1536 = "1.5K" ∧
        human_readable_size 10485760 = "10.0M" ∧
        human_readable_size 11534336 = "11M") ∧
      ∀ size : Nat,
        (10 * 2 ^ (10 * sizeExp size) < size ∨ size < 1024 →
          ∃ n : Nat,
            human_readable_size size = toString n ++ sizeLabel (sizeExp size)) ∧
        (1024 ≤ size → size ≤ 10 * 2 ^ (10 * sizeExp size) →
          ∃ n d : Nat, d < 10 ∧
            human_readable_size size =
              toString n ++ "." ++ toString d ++ sizeLabel (sizeExp size)) := by
  refine ⟨⟨by decide, by decide, by decide, by decide, by decide, by decide⟩,
    ?_⟩
  intro size
  constructor
  · intro h
    exact ⟨rheDiv size (10 * sizeExp size), by
      simp only [human_readable_size]
      rw [if_pos h]⟩
  · intro h1 h2
    have hnot : ¬(10 * 2 ^ (10 * sizeExp size) < size ∨ size < 1024) := by
      omega
    refine ⟨rheDiv (10 * size) (10 * sizeExp size) / 10,
      rheDiv (10 * size) (10 * sizeExp size) % 10, Nat.mod_lt _ (by omega), ?_⟩
    simp only [human_readable_size]
    rw [if_neg hnot]

/-- Witness for the amended claim C5: one decimal place at size 2048. -/
theorem human_readable_size_spec_witness :
    ∃ n d : Nat, d < 10 ∧
      human_readable_size 2048 =
        toString n ++ "." ++ toString d ++ sizeLabel (sizeExp 2048) :=
  (human_readable_size_spec.2 2048).2 (by decide) (by decide)

/-! The tokenizer of completions.py: shlex.split in posix mode with
whitespace splitting, followed by the offset-locating loop of `tokenize`.
Offsets are character positions (the lines handled are ASCII, where Python's
str offsets and byte offsets coincide); they are Int because a str.find miss
returns -1, which the loop adds to the running start. -/

/-- shlex's whitespace set. -/
def shWs (c : Char) : Bool := c = ' ' ∨ c = '\t' ∨ c = '\r' ∨ c = '\n'

/-- Scanner mode of the posix shlex state machine: plain text, inside single
or double quotes, or just after a backslash (outside or inside double
quotes). -/
inductive ShMode where
  | plain
  | squote
  | dquote
  | escPlain
  | escDquote
  deriving DecidableEq, Repr

/-- One pass of shlex.split (posix, whitespace_split): accumulates the
current token and the flag recording whether a token has begun (a quote
begins one even if empty); returns none on an unterminated quote or a
trailing escape, where shlex raises ValueError. -/
def shlexAux : List Char → ShMode → List Char → Bool → List String →
    Option (List String)
  | [], .plain, tok, started, acc =>
      some (acc ++ if started then [String.mk tok] else [])
  | [], _, _, _, _ => none
  | c :: rest, .plain, tok, started, acc =>
      if shWs c then
        if started then shlexAux rest .plain [] false (acc ++ [String.mk tok])
        else shlexAux rest .plain [] false acc
      else if c = '\'' then shlexAux rest .squote tok true acc
      else if c = '"' then shlexAux rest .dquote tok true acc
      else if c = '\\' then shlexAux rest .escPlain tok true acc
      else shlexAux rest .plain (tok ++ [c]) true acc
  | c :: rest, .squote, tok, started, acc =>
      if c = '\'' then shlexAux rest .plain tok started acc
      else shlexAux rest .squote (tok ++ [c]) started acc
  | c :: rest, .dquote, tok, started, acc =>
      if c = '"' then shlexAux rest .plain tok started acc
      else if c = '\\' then shlexAux rest .escDquote tok started acc
      else shlexAux rest .dquote (tok ++ [c]) started acc
  | c :: rest, .escPlain, tok, started, acc =>
      shlexAux rest .plain (tok ++ [c]) started acc
  | c :: rest, .escDquote, tok, started, acc =>
      if c = '"' ∨ c = '\\' then shlexAux rest .dquote (tok ++ [c]) started acc
      else shlexAux rest .dquote (tok ++ ['\\', c]) started acc

/-- shlex.split(line) in posix mode; none models a raised ValueError. -/
def shlexSplit (line : String) : Option (List String) :=
  shlexAux line.data .plain [] false []

/-- completions.Token: the unquoted text with its start/end offsets in the
original line (`stop` models the Python field `end`, a reserved word here). -/
structure Token where
  text : String
  start : Int
  stop : Int
  deriving DecidableEq, Repr

/-- Python str.find scan: the least index (counting from i) at which sub is
a prefix of the remaining list. -/
def pyFindAux (sub : List Char) : List Char → Nat → Option Nat
  | [], i => if sub.isPrefixOf [] then some i else none
  | c :: t, i =>
      if sub.isPrefixOf (c :: t) then some i else pyFindAux sub t (i + 1)

/-- Python str.find: lowest occurrence index, or -1. -/
def pyFind (s sub : List Char) : Int :=
  match pyFindAux sub s 0 with
  | some n => (n : Int)
  | none => -1

/-- Python s[i:] slicing, including the negative-index convention. -/
def pySliceFrom (s : List Char) (i : Int) : List Char :=
  if i < 0 then s.drop (((s.length : Int) + i).toNat) else s.drop i.toNat

/-- The offset-locating loop of completions.tokenize: each token's start is
found by searching the line for the token text beginning at the running
`start` variable — which after an iteration holds that token's start (not
its end). -/
def tokOffsets (line : List Char) : List String → Int → List Token
  | [], _ => []
  | w :: ws, start =>
      let s := pyFind (pySliceFrom line start) w.data + start
      ⟨w, s, s + (w.length : Int)⟩ :: tokOffsets line ws s

/-- completions.tokenize: shlex-split then locate offsets. -/
def tokenize (line : String) : Option (List Token) :=
  (shlexSplit line).map (fun ws => tokOffsets line.data ws 0)

/-- completions.locate_full_token: the first token whose closed span
contains `begin`; none models a failed assertion (end beyond the located
token, or no token containing `begin`). -/
def locate_full_token : List Token → Int → Int → Option Token
  | [], _, _ => none
  | t :: ts, b, e =>
      if t.start ≤ b ∧ b ≤ t.stop then
        if e ≤ t.stop then some t else none
      else locate_full_token ts b e

/-- `w` occurs in `line` at position `n`. -/
def occursAt (line w : List Char) (n : Nat) : Bool := w.isPrefixOf (line.drop n)

theorem pyFindAux_spec {sub : List Char} :
    ∀ {s : List Char} {i n : Nat}, pyFindAux sub s i = some n →
      i ≤ n ∧ sub.isPrefixOf (s.drop (n - i)) = true ∧
        ∀ m, m < n - i → sub.isPrefixOf (s.drop m) = false := by
  intro s
  induction s with
  | nil =>
    intro i n h
    rw [pyFindAux] at h
    split at h
    · cases h
      refine ⟨Nat.le_refl _, by simp_all, ?_⟩
      intro m hm
      omega
    · cases h
  | cons c t ih =>
    intro i n h
    rw [pyFindAux] at h
    split at h
    · cases h
      refine ⟨Nat.le_refl _, by simp_all, ?_⟩
      intro m hm
      omega
    · rename_i hpre
      obtain ⟨h1, h2, h3⟩ := ih h
      refine ⟨by omega, ?_, ?_⟩
      · have : n - i = (n - (i + 1)) + 1 := by omega
        rw [this, List.drop_succ_cons]
        exact h2
      · intro m hm
        cases m with
        | zero => simpa using Bool.eq_false_iff.2 hpre
        | succ m' =>
          rw [List.drop_succ_cons]
          exact h3 m' (by omega)

/-- The located start is a genuine occurrence and the least one at or after
the search base; stated for the tokens of a whole line below. -/
def leastOccFrom (line : List Char) (w : String) (ps s : Int) : Prop :=
  0 ≤ s ∧ occursAt line w.data s.toNat = true ∧
    ∀ m : Nat, ps.toNat ≤ m → m < s.toNat → occursAt line w.data m = false

/-- Offset soundness for a token list: each stop is start + length, and
whenever the search base was nonnegative and the token's start did not fall
below it (i.e. the find succeeded), that start is the least occurrence of
the token text at or after the base — the base being the previous token's
start. -/
def tokensProp (line : List Char) : List Token → Int → Prop
  | [], _ => True
  | t :: ts, ps =>
      t.stop = t.start + (t.text.length : Int) ∧
        (0 ≤ ps → ps ≤ t.start → leastOccFrom line t.text ps t.start) ∧
        tokensProp line ts t.start

theorem tokOffsets_sound (line : List Char) :
    ∀ (ws : List String) (start : Int),
      (tokOffsets line ws start).map Token.text = ws ∧
        tokensProp line (tokOffsets line ws start) start := by
  intro ws
  induction ws with
  | nil => intro start; exact ⟨rfl, trivial⟩
  | cons w ws ih =>
    intro start
    constructor
    · simp [tokOffsets, (ih _).1]
    · rw [tokOffsets, tokensProp]
      dsimp only
      refine ⟨rfl, ?_, (ih _).2⟩
      intro h0 hle
      cases hfind : pyFindAux w.data (pySliceFrom line start) 0 with
      | none =>
        exfalso
        simp only [pyFind, hfind] at hle
        omega
      | some n =>
        obtain ⟨-, hpre, hmin⟩ := pyFindAux_spec hfind
        have hslice : pySliceFrom line start = line.drop start.toNat := by
          rw [pySliceFrom, if_neg (by omega)]
        have hs : pyFind (pySliceFrom line start) w.data =
            (n : Int) := by
          simp only [pyFind, hfind]
        rw [leastOccFrom, hs]
        refine ⟨by omega, ?_, ?_⟩
        · have htn : ((n : Int) + start).toNat = start.toNat + n := by omega
          rw [htn, occursAt]
          rw [hslice] at hpre
          simp only [Nat.sub_zero] at hpre
          rw [List.drop_drop] at hpre
          exact hpre
        · intro m hm1 hm2
          have hs2 : ((n : Int) + start).toNat = n + start.toNat := by omega
          rw [hs2] at hm2
          have hmn : m - start.toNat < n := by omega
          have hdone := hmin (m - start.toNat) (by omega)
          rw [hslice, List.drop_drop] at hdone
          rw [occursAt]
          have hmeq : start.toNat + (m - start.toNat) = m := by omega
          rw [hmeq] at hdone
          exact hdone

/-- Claim C6 (counterexample): in the line "aa a" the second shell word "a"
has its own occurrence at offset 3 (the first occurrence at or after the
previous token's end 2), but tokenize assigns it offsets 0..1 because the
search restarts at the previous token's start, finding the "a" inside "aa". -/
theorem tokenize_offsets_cex :
    tokenize "aa a" = some [⟨"aa", 0, 2⟩, ⟨"a", 0, 1⟩] ∧
      pyFind (pySliceFrom "aa a".data 2) "a".data + 2 = 3 := by
  refine ⟨by decide, by decide⟩

/-- Claim C6 (amended): for every line accepted by the shell splitter,
tokenize returns one Token per shell word (in order, with stop = start +
length), and each token's start is the offset of the first occurrence of its
unquoted text at or after the PREVIOUS TOKEN'S START (not its end) — so a
token whose text also occurs at or after the previous token's start but
before its own word (including inside the previous token) receives the
offsets of that earlier occurrence. -/
theorem tokenize_token_per_word_and_offsets :
    ∀ (line : String) (ts : List Token), tokenize line = some ts →
      shlexSplit line = some (ts.map Token.text) ∧
        tokensProp line.data ts 0 := by
  intro line ts h
  rw [tokenize] at h
  cases hs : shlexSplit line with
  | none => rw [hs] at h; cases h
  | some ws =>
    rw [hs] at h
    simp only [Option.map] at h
    cases h
    obtain ⟨h1, h2⟩ := tokOffsets_sound line.data ws 0
    rw [h1]
    exact ⟨rfl, h2⟩

/-- Witness for the amended claim C6 on the concrete line "ls -l". -/
theorem tokenize_token_per_word_and_offsets_witness :
    shlexSplit "ls -l" =
        some ([⟨"ls", 0, 2⟩, ⟨"-l", 3, 5⟩].map Token.text) ∧
      tokensProp "ls -l".data [⟨"ls", 0, 2⟩, ⟨"-l", 3, 5⟩] 0 :=
  tokenize_token_per_word_and_offsets "ls -l" [⟨"ls", 0, 2⟩, ⟨"-l", 3, 5⟩]
    (by decide)

/-- Claim C7 (counterexample): on the tokenize output for "aba ba" the token
spans overlap (the find-based offsets place "ba" at 1..3, inside "aba" at
0..3); the offset 2 lies strictly inside the span of the second token "ba",
yet locate_full_token returns the first token "aba", not that token — so
"for every cursor offset strictly inside a token's span the function returns
that token" fails on tokenize-produced lists. -/
theorem locate_full_token_cex :
    tokenize "aba ba" = some [⟨"aba", 0, 3⟩, ⟨"ba", 1, 3⟩] ∧
      locate_full_token [⟨"aba", 0, 3⟩, ⟨"ba", 1, 3⟩] 2 2 =
        some ⟨"aba", 0, 3⟩ ∧
      ((1 : Int) < 2 ∧ (2 : Int) < 3) ∧
      (⟨"aba", 0, 3⟩ : Token) ≠ ⟨"ba", 1, 3⟩ := by
  refine ⟨by decide, by decide, by decide, by decide⟩

/-- Claim C7 (amended): locate_full_token returns the FIRST token in list
order whose closed span [start, stop] contains `begin`; when the spans are
pairwise disjoint and increasing (the usual case, broken only by the offset
anomaly of C6) this is the unique token strictly containing `begin`, and at
a boundary shared by two tokens it is the earlier token ending there; the
assertions do not fire provided additionally `end` does not exceed that
first containing token's `stop`. -/
theorem locate_full_token_first_containing :
    ∀ (ts : List Token) (b e : Int) (k : Nat) (hk : k < ts.length),
      (∀ j (hj : j < ts.length), j < k →
        ¬((ts.get ⟨j, hj⟩).start ≤ b ∧ b ≤ (ts.get ⟨j, hj⟩).stop)) →
      ((ts.get ⟨k, hk⟩).start ≤ b ∧ b ≤ (ts.get ⟨k, hk⟩).stop) →
      e ≤ (ts.get ⟨k, hk⟩).stop →
      locate_full_token ts b e = some (ts.get ⟨k, hk⟩) := by
  intro ts
  induction ts with
  | nil => intro b e k hk; cases hk
  | cons t rest ih =>
    intro b e k hk hmin hin he
    cases k with
    | zero =>
      simp only [List.get] at hin he ⊢
      rw [locate_full_token, if_pos hin, if_pos he]
    | succ k' =>
      have hnot : ¬(t.start ≤ b ∧ b ≤ t.stop) := by
        have := hmin 0 (by simp) (Nat.succ_pos _)
        simpa using this
      rw [locate_full_token, if_neg hnot]
      simp only [List.get] at hin he ⊢
      exact ih b e k' (Nat.lt_of_succ_lt_succ hk)
        (fun j hj hjk => hmin (j + 1) (by omega) (by omega)) hin he

/-- Witness for the amended claim C7: cursor strictly inside the second
token of "ls -l". -/
theorem locate_full_token_first_containing_witness :
    locate_full_token [⟨"ls", 0, 2⟩, ⟨"-l", 3, 5⟩] 4 5 =
      some (([⟨"ls", 0, 2⟩, ⟨"-l", 3, 5⟩] :
        List Token).get ⟨1, by decide⟩) :=
  locate_full_token_first_containing [⟨"ls", 0, 2⟩, ⟨"-l", 3, 5⟩] 4 5 1
    (by decide) (by decide) (by decide) (by decide)

/-! The command handlers of __main__.py and the REPL dispatch boundary.
Each handler returns the printed diagnostic lines together with a log of the
remote-mutating effects it performed; an `Except.error` models an IOError
escaping the handler.  Effects performed before a raised IOError are not
tracked (only claims about runs whose remote calls succeed consult the
effect log).  Argument parsing, rich markup and progress rendering are
presentation concerns outside the claims and are reduced to plain message
strings here. -/

/-- One remote or local filesystem effect performed by a handler. -/
inductive Effect where
  | fetch (src dst : String)
  | upload (src dst : String)
  | removeE (p : String)
  | rmdirE (p : String)
  | mkdirE (p : String)
  | renameE (a b : String)
  | chdirE (p : String)
  deriving DecidableEq, Repr

/-- Messages printed and effects performed by one handler invocation. -/
abbrev HandlerOut := List String × List Effect

/-- utils.handle_io_error: the decorator wrapped around cd, get, rm, rmdir,
mkdir, cp and mv — an IOError is rendered as a red message and swallowed. -/
def handle_io_error (r : Except IOErr HandlerOut) : Except IOErr HandlerOut :=
  match r with
  | .error e => .ok (["[red]" ++ e ++ "[/red]"], [])
  | .ok o => .ok o

/-- The local filesystem as the handlers consult it: glob.glob and
Path.is_dir. -/
structure LocalFs where
  glob : String → List String
  is_dir : String → Bool

/-- The environment one command executes in: the SFTP client, the local
filesystem, and the temporary staging directory cp uses. -/
structure Env where
  fs : Fs
  local_fs : LocalFs
  tmp_dir : PPath := ⟨false, ["tmp", "stage"]⟩

/-- Path(s).name for a local path string. -/
def pathName (s : String) : String :=
  (((s.splitOn "/").filter (fun x => x ≠ "")).getLast?).getD ""

/-- The for-loop of the get handler: a matched directory source is reported
inline and skipped; a non-directory source is fetched (into dst, or dst/name
when dst is a local directory). -/
def getLoop (env : Env) (dst : PPath) :
    List (PPath × SFTPAttributes) → HandlerOut → Except IOErr HandlerOut
  | [], acc => .ok acc
  | pa :: rest, acc =>
      if is_dir pa.2 then
        getLoop env dst rest (acc.1 ++ [pa.1.toStr ++ " is a directory"], acc.2)
      else
        let dst_name := if env.local_fs.is_dir dst.toStr
          then (dst.child pa.1.name).toStr else dst.toStr
        match env.fs.getFile pa.1.toStr dst_name with
        | .error e => .error e
        | .ok _ =>
            getLoop env dst rest (acc.1, acc.2 ++ [.fetch pa.1.toStr dst_name])

/-- __main__.get before the decorator: expand the remote glob; report "not
found" on zero matches; report "Not a directory" when more than one match
and the local destination is not a directory; otherwise run the fetch loop. -/
def get_try (env : Env) (src dst : PPath) : Except IOErr HandlerOut :=
  match expand_path_globs env.fs [src] with
  | .error e => .error e
  | .ok matching_files =>
      if matching_files = [] then
        .ok (["File " ++ src.toStr ++ " not found"], [])
      else if 1 < matching_files.length ∧
          env.local_fs.is_dir dst.toStr = false then
        .ok ([dst.toStr ++ ": Not a directory"], [])
      else getLoop env dst matching_files ([], [])

/-- __main__.get as dispatched (wrapped by handle_io_error). -/
def get (env : Env) (src dst : PPath) : Except IOErr HandlerOut :=
  handle_io_error (get_try env src dst)

/-- The upload loop of the put handler; dst_attr is the memoized result of
the internal try/except stat of the destination. -/
def putLoop (env : Env) (dst : PPath) (dst_attr : Option SFTPAttributes) :
    List String → HandlerOut → Except IOErr HandlerOut
  | [], acc => .ok acc
  | s :: rest, acc =>
      let dst_name := if dst_attr.any is_dir
        then (dst.child (pathName s)).toStr else dst.toStr
      match env.fs.putFile s dst_name with
      | .error e => .error e
      | .ok _ =>
          putLoop env dst dst_attr rest (acc.1, acc.2 ++ [.upload s dst_name])

/-- __main__.put: expands a LOCAL glob, stats the remote destination
(with its own internal try/except), applies the multi-match rule, then
uploads each source.  Unlike every other handler, put carries no
handle_io_error decorator, so an IOError raised by the upload escapes. -/
def put (env : Env) (src : String) (dst : PPath) : Except IOErr HandlerOut :=
  let matching_files := env.local_fs.glob src
  if matching_files = [] then .ok (["File " ++ src ++ " not found"], [])
  else
    let dst_attr := (env.fs.stat dst.toStr).toOption
    if 1 < matching_files.length ∧ dst_attr.any is_dir = false then
      .ok ([dst.toStr ++ ": Not a directory"], [])
    else putLoop env dst dst_attr matching_files ([], [])

/-- The removal loop of the rm handler: entries in order; the first matched
directory aborts the command with a reported error, leaving the rest
untouched. -/
def rmLoop (env : Env) :
    List (PPath × SFTPAttributes) → HandlerOut → Except IOErr HandlerOut
  | [], acc => .ok acc
  | pa :: rest, acc =>
      if is_dir pa.2 then
        .ok (acc.1 ++ [pa.1.toStr ++ ": is a directory"], acc.2)
      else
        match env.fs.removeFile pa.1.toStr with
        | .error e => .error e
        | .ok _ => rmLoop env rest (acc.1, acc.2 ++ [.removeE pa.1.toStr])

/-- __main__.rm as dispatched (wrapped by handle_io_error). -/
def rm (env : Env) (paths : List PPath) : Except IOErr HandlerOut :=
  handle_io_error
    (match expand_path_globs env.fs paths with
      | .error e => .error e
      | .ok ms => rmLoop env ms ([], []))

/-- The loop of the rmdir handler: aborts at the first non-directory. -/
def rmdirLoop (env : Env) :
    List (PPath × SFTPAttributes) → HandlerOut → Except IOErr HandlerOut
  | [], acc => .ok acc
  | pa :: rest, acc =>
      if is_dir pa.2 = false then
        .ok (acc.1 ++ [pa.1.toStr ++ ": Not a directory"], acc.2)
      else
        match env.fs.rmdirDir pa.1.toStr with
        | .error e => .error e
        | .ok _ => rmdirLoop env rest (acc.1, acc.2 ++ [.rmdirE pa.1.toStr])

/-- __main__.rmdir as dispatched. -/
def rmdir (env : Env) (paths : List PPath) : Except IOErr HandlerOut :=
  handle_io_error
    (match expand_path_globs env.fs paths with
      | .error e => .error e
      | .ok ms => rmdirLoop env ms ([], []))

/-- The loop of mkdir: each named directory is created directly, stopping at
the first failure (which the decorator then reports). -/
def mkdirLoop (env : Env) :
    List PPath → HandlerOut → Except IOErr HandlerOut
  | [], acc => .ok acc
  | p :: rest, acc =>
      match env.fs.mkdirDir p.toStr with
      | .error e => .error e
      | .ok _ => mkdirLoop env rest (acc.1, acc.2 ++ [.mkdirE p.toStr])

/-- __main__.mkdir as dispatched (no glob expansion). -/
def mkdir (env : Env) (paths : List PPath) : Except IOErr HandlerOut :=
  handle_io_error (mkdirLoop env paths ([], []))

/-- The copy loop of cp: each match is staged through the temporary local
directory (fetched then re-uploaded). -/
def cpLoop (env : Env) (dst : PPath) (dst_attr : Option SFTPAttributes) :
    List (PPath × SFTPAttributes) → HandlerOut → Except IOErr HandlerOut
  | [], acc => .ok acc
  | pa :: rest, acc =>
      let dst_name := if dst_attr.any is_dir
        then (dst.child pa.1.name).toStr else dst.toStr
      let tmp_name := (env.tmp_dir.child pa.1.name).toStr
      match env.fs.getFile pa.1.toStr tmp_name with
      | .error e => .error e
      | .ok _ =>
          match env.fs.putFile tmp_name dst_name with
          | .error e => .error e
          | .ok _ =>
              cpLoop env dst dst_attr rest
                (acc.1,
                 acc.2 ++ [.fetch pa.1.toStr tmp_name,
                           .upload tmp_name dst_name])

/-- __main__.cp as dispatched. -/
def cp (env : Env) (src dst : PPath) : Except IOErr HandlerOut :=
  handle_io_error
    (match expand_path_globs env.fs [src] with
      | .error e => .error e
      | .ok ms =>
          if ms = [] then .ok (["File " ++ src.toStr ++ " not found"], [])
          else
            let dst_attr := (env.fs.stat dst.toStr).toOption
            if 1 < ms.length ∧ dst_attr.any is_dir = false then
              .ok ([dst.toStr ++ ": Not a directory"], [])
            else cpLoop env dst dst_attr ms ([], []))

/-- The rename loop of mv. -/
def mvLoop (env : Env) (dst : PPath) (dst_attr : Option SFTPAttributes) :
    List (PPath × SFTPAttributes) → HandlerOut → Except IOErr HandlerOut
  | [], acc => .ok acc
  | pa :: rest, acc =>
      let dst_name := if dst_attr.any is_dir
        then (dst.child pa.1.name).toStr else dst.toStr
      match env.fs.posix_rename pa.1.toStr dst_name with
      | .error e => .error e
      | .ok _ =>
          mvLoop env dst dst_attr rest
            (acc.1, acc.2 ++ [.renameE pa.1.toStr dst_name])

/-- __main__.mv as dispatched (note: no zero-match report, as in the
source). -/
def mv (env : Env) (srcs : List PPath) (dst : PPath) :
    Except IOErr HandlerOut :=
  handle_io_error
    (match expand_path_globs env.fs srcs with
      | .error e => .error e
      | .ok ms =>
          let dst_attr := (env.fs.stat dst.toStr).toOption
          if 1 < ms.length ∧ dst_attr.any is_dir = false then
            .ok ([dst.toStr ++ ": Not a directory"], [])
          else mvLoop env dst dst_attr ms ([], []))

/-- Sort order of ls's matched paths: the tuple key
(is_dir, lowercased path). -/
def lsLe (a b : PPath × SFTPAttributes) : Bool :=
  (!(is_dir a.2) && is_dir b.2) ||
    (is_dir a.2 == is_dir b.2 && decide (a.1.toStr.toLower ≤ b.1.toStr.toLower))

/-- The listing loop of ls: a directory match is listed (header first when
several matches), a file match is printed directly; rendering is reduced to
entry names, the formatting being presentation. -/
def lsLoop (env : Env) (multi : Bool) :
    List (PPath × SFTPAttributes) → List String → Except IOErr (List String)
  | [], out => .ok out
  | pa :: rest, out =>
      if is_dir pa.2 then
        match env.fs.listdir_attr pa.1.toStr with
        | .error e => .error e
        | .ok attrs =>
            lsLoop env multi rest
              (out ++ (if multi then [pa.1.toStr ++ ":"] else []) ++
                attrs.map (fun a => a.filename))
      else lsLoop env multi rest (out ++ [pa.1.toStr])

/-- __main__.ls: its try/except issues the expansion and the listings and
renders any IOError itself (same recovery as the decorator). -/
def ls (env : Env) (paths : List PPath) : Except IOErr HandlerOut :=
  handle_io_error
    (match expand_path_globs env.fs paths with
      | .error e => .error e
      | .ok ms =>
          match lsLoop env (1 < ms.length) (ms.mergeSort lsLe) [] with
          | .error e => .error e
          | .ok out => .ok (out, []))

/-- __main__.cd as dispatched. -/
def cd (env : Env) (p : String) : Except IOErr HandlerOut :=
  handle_io_error
    (match env.fs.chdir p with
      | .error e => .error e
      | .ok _ => .ok ([], [.chdirE p]))

/-- A command of the COMMANDS table with its parsed arguments (list flags
dropped: they affect rendering only). -/
inductive Cmd where
  | lsC (paths : List PPath)
  | cdC (p : String)
  | getC (src dst : PPath)
  | putC (src : String) (dst : PPath)
  | rmC (paths : List PPath)
  | rmdirC (paths : List PPath)
  | mkdirC (paths : List PPath)
  | cpC (src dst : PPath)
  | mvC (srcs : List PPath) (dst : PPath)

/-- _repl_main's dispatch of a recognized command: the handler runs with
whatever catching it itself provides — the handle_io_error decorator on
cd/get/rm/rmdir/mkdir/cp/mv, ls's internal try/except, and nothing at all
for put.  The surrounding match in _repl_main catches only ParserError, so
an `Except.error` escaping dispatch is an IOError unwinding _repl_main and
terminating the REPL. -/
def dispatch (env : Env) : Cmd → Except IOErr HandlerOut
  | .lsC paths => ls env paths
  | .cdC p => cd env p
  | .getC src dst => get env src dst
  | .putC src dst => put env src dst
  | .rmC paths => rm env paths
  | .rmdirC paths => rmdir env paths
  | .mkdirC paths => mkdir env paths
  | .cpC src dst => cp env src dst
  | .mvC srcs dst => mv env srcs dst

/-- An environment on which put's upload raises: one local glob match, a
destination that does not stat, and an upload that fails with an IOError. -/
def envPutFail : Env where
  fs := { stat := fun _ => .error "no such file"
          listdir_attr := fun _ => .error "no list"
          putFile := fun _ _ => .error "connection lost" }
  local_fs := { glob := fun _ => ["f.txt"], is_dir := fun _ => false }

/-- Claim C1 (evaluation at the failing input): dispatching `put f.txt dest`
when the SFTP upload raises an IOError lets the error escape the dispatch —
put alone carries no handle_io_error decorator and _repl_main catches only
ParserError, so the IOError unwinds the REPL loop instead of being rendered;
the second conjunct shows the rendering every decorated handler's failure
receives at that same boundary. -/
theorem put_io_error_escapes_dispatch :
    dispatch envPutFail (.putC "f.txt" ⟨false, ["dest"]⟩) =
        .error "connection lost" ∧
      ∀ e, handle_io_error (.error e) = .ok (["[red]" ++ e ++ "[/red]"], []) :=
  ⟨rfl, fun _ => rfl⟩

theorem getLoop_ok (env : Env) (dst : PPath)
    (hok : ∀ a b, env.fs.getFile a b = .ok ()) :
    ∀ (ms : List (PPath × SFTPAttributes)) (acc : HandlerOut),
      getLoop env dst ms acc =
        .ok (acc.1 ++ (ms.filter (fun pa => is_dir pa.2)).map
               (fun pa => pa.1.toStr ++ " is a directory"),
             acc.2 ++ (ms.filter (fun pa => !is_dir pa.2)).map
               (fun pa => Effect.fetch pa.1.toStr
                  (if env.local_fs.is_dir dst.toStr = true
                   then (dst.child pa.1.name).toStr else dst.toStr))) := by
  intro ms
  induction ms with
  | nil => intro acc; simp [getLoop]
  | cons pa rest ih =>
    intro acc
    rw [getLoop]
    cases hd : is_dir pa.2 with
    | true => simp [hd, ih, List.filter_cons, List.append_assoc]
    | false => simp [hd, hok, ih, List.filter_cons, List.append_assoc]

/-- Claim C8: get reports "not found" with no transfer on zero matches;
reports "Not a directory" with zero transfers when several matches target a
non-directory local destination; and otherwise skips each matched directory
source with an inline error while fetching every non-directory match. -/
theorem get_error_reporting (env : Env) (src dst : PPath) :
    (expand_path_globs env.fs [src] = .ok [] →
        get env src dst = .ok (["File " ++ src.toStr ++ " not found"], [])) ∧
      (∀ ms, expand_path_globs env.fs [src] = .ok ms → 1 < ms.length →
        env.local_fs.is_dir dst.toStr = false →
        get env src dst = .ok ([dst.toStr ++ ": Not a directory"], [])) ∧
      (∀ ms, expand_path_globs env.fs [src] = .ok ms → ms ≠ [] →
        (ms.length ≤ 1 ∨ env.local_fs.is_dir dst.toStr = true) →
        (∀ a b, env.fs.getFile a b = .ok ()) →
        get env src dst =
          .ok ((ms.filter (fun pa => is_dir pa.2)).map
                 (fun pa => pa.1.toStr ++ " is a directory"),
               (ms.filter (fun pa => !is_dir pa.2)).map
                 (fun pa => Effect.fetch pa.1.toStr
                    (if env.local_fs.is_dir dst.toStr = true
                     then (dst.child pa.1.name).toStr else dst.toStr)))) := by
  refine ⟨?_, ?_, ?_⟩
  · intro h
    rw [get, get_try, h]
    simp [handle_io_error]
  · intro ms h hlen hdir
    rw [get, get_try, h]
    dsimp only
    rw [if_neg (List.ne_nil_of_length_pos (by omega)), if_pos ⟨hlen, hdir⟩]
    simp [handle_io_error]
  · intro ms h hne hcond hok
    rw [get, get_try, h]
    dsimp only
    rw [if_neg (by simpa using hne)]
    rw [if_neg (by rcases hcond with h1 | h1 <;> simp [h1])]
    rw [getLoop_ok env dst hok ms ([], [])]
    simp [handle_io_error]

/-- A demo environment for get: the current directory lists a file and a
directory, uploads and fetches succeed, the local destination is a
directory. -/
def envGetDemo : Env where
  fs := { stat := fun _ => .error "no stat"
          listdir_attr := fun s =>
            if s = "." then
              .ok [⟨"a.txt", 0o100644, 4⟩, ⟨"d", 0o040755, 0⟩]
            else .error "no list" }
  local_fs := { glob := fun _ => [], is_dir := fun _ => true }

/-- Witness for claim C8: `get * dl` fetches the file and skips the
directory with an inline error. -/
theorem get_error_reporting_witness :
    get envGetDemo ⟨false, ["*"]⟩ ⟨false, ["dl"]⟩ =
      .ok (["d is a directory"], [.fetch "a.txt" "dl/a.txt"]) :=
  (get_error_reporting envGetDemo ⟨false, ["*"]⟩ ⟨false, ["dl"]⟩).2.2
    [(⟨false, ["a.txt"]⟩, ⟨"a.txt", 0o100644, 4⟩),
     (⟨false, ["d"]⟩, ⟨"d", 0o040755, 0⟩)]
    (by simp +decide [expand_path_globs, PPath.rootNonempty, PPath.parts,
      search_glob, searchGlobFiles, fnmatch, parseGlob, globMatch,
      envGetDemo, PPath.child, PPath.toStr])
    (by decide) (Or.inr rfl) (fun _ _ => rfl)

theorem rmLoop_ok (env : Env) (hok : ∀ p, env.fs.removeFile p = .ok ()) :
    ∀ (ms : List (PPath × SFTPAttributes)) (acc : HandlerOut),
      rmLoop env ms acc =
        .ok (acc.1 ++ (match ms.dropWhile (fun pa => !is_dir pa.2) with
               | [] => []
               | pa :: _ => [pa.1.toStr ++ ": is a directory"]),
             acc.2 ++ (ms.takeWhile (fun pa => !is_dir pa.2)).map
               (fun pa => Effect.removeE pa.1.toStr)) := by
  intro ms
  induction ms with
  | nil => intro acc; simp [rmLoop]
  | cons pa rest ih =>
    intro acc
    rw [rmLoop]
    cases hd : is_dir pa.2 with
    | true => simp [hd, List.dropWhile_cons, List.takeWhile_cons]
    | false =>
      simp [hd, hok, ih, List.dropWhile_cons, List.takeWhile_cons,
        List.append_assoc]

/-- Claim C9: rm processes the expanded matches in order and aborts with a
reported error at the first matched directory: exactly the non-directory
entries before that point are removed (not rolled back), and nothing at or
after the first directory is removed. -/
theorem rm_aborts_at_first_directory (env : Env) (paths : List PPath)
    (ms : List (PPath × SFTPAttributes))
    (hexp : expand_path_globs env.fs paths = .ok ms)
    (hok : ∀ p, env.fs.removeFile p = .ok ()) :
    rm env paths =
      .ok ((match ms.dropWhile (fun pa => !is_dir pa.2) with
             | [] => []
             | pa :: _ => [pa.1.toStr ++ ": is a directory"]),
           (ms.takeWhile (fun pa => !is_dir pa.2)).map
             (fun pa => Effect.removeE pa.1.toStr)) := by
  rw [rm, hexp]
  dsimp only
  rw [rmLoop_ok env hok ms ([], [])]
  simp [handle_io_error]

/-- A demo environment for rm: the current directory lists file "a",
directory "d", then file "b"; removals succeed. -/
def envRmDemo : Env where
  fs := { stat := fun _ => .error "no stat"
          listdir_attr := fun s =>
            if s = "." then
              .ok [⟨"a", 0o100644, 1⟩, ⟨"d", 0o040755, 0⟩, ⟨"b", 0o100644, 1⟩]
            else .error "no list"
          removeFile := fun _ => .ok () }
  local_fs := { glob := fun _ => [], is_dir := fun _ => false }

/-- Witness for claim C9: `rm *` removes "a", aborts at directory "d", and
leaves "b" untouched. -/
theorem rm_aborts_at_first_directory_witness :
    rm envRmDemo [⟨false, ["*"]⟩] =
      .ok (["d: is a directory"], [.removeE "a"]) :=
  rm_aborts_at_first_directory envRmDemo [⟨false, ["*"]⟩]
    [(⟨false, ["a"]⟩, ⟨"a", 0o100644, 1⟩),
     (⟨false, ["d"]⟩, ⟨"d", 0o040755, 0⟩),
     (⟨false, ["b"]⟩, ⟨"b", 0o100644, 1⟩)]
    (by simp +decide [expand_path_globs, PPath.rootNonempty, PPath.parts,
      search_glob, searchGlobFiles, fnmatch, parseGlob, globMatch,
      envRmDemo, PPath.child, PPath.toStr])
    (fun _ => rfl)

end SftpRepl
